import Mathlib

/-!
Shallow embedding of `backend/src/vehicle_count.py` (class `VehicleCount`)
from the traffic_density_prediction repository.

Conventions of the embedding:
* Python float literals that take part in exact decimal arithmetic are
  modelled as rationals (`0.100 * 3` becomes `(1/10) * 3 : ℚ`); for the
  density/jam classification the float rounding of `0.100 * 3` cannot change
  any comparison against the threshold at an integer vehicle count.
* `datetime.time` values are modelled as seconds-of-day (`ℕ`); comparison of
  `datetime.time` objects is lexicographic on (hour, minute, second), which
  agrees with comparison of the second counts.
* Failures raised as Python exceptions are modelled by `Option`/`none`
  (`min()` on an empty sequence, `int()` on a non-numeric string,
  `list[2]` out of range, `strptime` mismatch).
* Raster images are modelled as a pair of dimensions plus a pixel function
  `ℕ → ℕ → ℕ`; a `uint8` image satisfies `pix i j < 256`.
* External collaborators (cv2's polygon rasterizer, the YOLO detector) are
  parameters of the definitions that call them: `fillPoly`'s notion of which
  pixel is inside the polygon, and the detector producing bounding boxes.
-/

namespace VehicleCount

/-! ### DensityClassifier: `predict_vehicle_count` lines 146-147 -/

/-- `density = vehicle_count / (0.100 * 3)` (line 146), in exact arithmetic. -/
def densityOf (vehicle_count : ℕ) : ℚ :=
  (vehicle_count : ℚ) / ((1 / 10) * 3)

/-- `jam = 1 if density >= 23.33 else 0` (line 147). -/
def jamOf (d : ℚ) : ℕ :=
  if d ≥ 2333 / 100 then 1 else 0

/-! ### TemporalClassifier: `__time_in_range`, `__is_weekday`, `__is_peak` -/

/-- A `datetime.datetime` value, as produced by
`datetime.datetime.strptime(timestamp, "%Y%m%d%H%M%S")`. -/
structure Datetime where
  year : ℕ
  month : ℕ
  day : ℕ
  hour : ℕ
  minute : ℕ
  second : ℕ
deriving DecidableEq, Repr

/-- `datetime.time(h, m, s)` as a second count of the day. -/
def mkTime (h m s : ℕ) : ℕ :=
  h * 3600 + m * 60 + s

/-- `image_datetime.time()`. -/
def timeOfDay (dt : Datetime) : ℕ :=
  mkTime dt.hour dt.minute dt.second

/-- `__time_in_range(start, end, x)` (lines 77-81):
`start <= x <= end` when `start <= end`, else `start <= x or x <= end`. -/
def time_in_range (start stop x : ℕ) : Bool :=
  if start ≤ stop then decide (start ≤ x ∧ x ≤ stop)
  else decide (start ≤ x ∨ x ≤ stop)

/-- The hard-coded `peak_hours` list of `__is_peak` (lines 90-94). -/
def peak_hours : List (ℕ × ℕ) :=
  [(mkTime 8 0 0, mkTime 10 0 0), (mkTime 18 0 0, mkTime 20 30 0)]

/-- The loop body of `__is_peak` (lines 95-101): scan the windows, keeping the
first positive answer (the `break` leaves an already-true flag unchanged). -/
def isPeakBool (t : ℕ) : Bool :=
  peak_hours.foldl (fun b w => if b then b else time_in_range w.1 w.2 t) false

/-- `__is_peak(image_datetime)` (lines 89-104): returns the int 1 or 0. -/
def is_peak (dt : Datetime) : ℕ :=
  if isPeakBool (timeOfDay dt) then 1 else 0

/-- `image_datetime.weekday()`: Monday = 0 … Sunday = 6 (Zeller's congruence,
shifted to Python's convention). -/
def pyWeekday (dt : Datetime) : ℕ :=
  let m := if dt.month < 3 then dt.month + 12 else dt.month
  let y := if dt.month < 3 then dt.year - 1 else dt.year
  let K := y % 100
  let J := y / 100
  let h := (dt.day + (13 * (m + 1)) / 5 + K + K / 4 + J / 4 + 5 * J) % 7
  (h + 5) % 7

/-- `__is_weekday(image_datetime)` (lines 83-87): 1 for Monday(0)–Friday(4). -/
def is_weekday (dt : Datetime) : ℕ :=
  if pyWeekday dt < 5 then 1 else 0

/-! ### RegionMasker: `__roi` (lines 23-37) -/

/-- A raster image: `rows = img.shape[0]`, `cols = img.shape[1]`, and a pixel
value per position (a `uint8` channel value, so `< 256` on real inputs). -/
structure Image where
  rows : ℕ
  cols : ℕ
  pix : ℕ → ℕ → ℕ

/-- `np.zeros_like(img)` (line 30). -/
def zerosLike (img : Image) : Image :=
  ⟨img.rows, img.cols, fun _ _ => 0⟩

/-- `cv2.fillPoly(mask, pts=np.int32([shape]), color=(255, 255, 255))`
(line 33), parameterised by cv2's rasterisation of the filled polygon: the
predicate `inside coords i j` tells whether pixel `(i, j)` lies in the filled
polygon `coords`.  Pixels inside get the mask colour 255, the rest keep the
underlying value. -/
def fillPoly (inside : List (ℤ × ℤ) → ℕ → ℕ → Bool)
    (coords : List (ℤ × ℤ)) (m : Image) : Image :=
  ⟨m.rows, m.cols, fun i j => if inside coords i j then 255 else m.pix i j⟩

/-- `cv2.bitwise_and(img, mask)` (line 36): elementwise bitwise AND. -/
def bitwiseAnd (a b : Image) : Image :=
  ⟨a.rows, a.cols, fun i j => a.pix i j &&& b.pix i j⟩

/-- `__roi(img, coords)` (lines 23-37): fewer than 4 coordinates prints an
error and returns `None`; otherwise AND the image with the filled-polygon
mask built on a zero canvas of the image's dimensions. -/
def roi (inside : List (ℤ × ℤ) → ℕ → ℕ → Bool)
    (img : Image) (coords : List (ℤ × ℤ)) : Option Image :=
  if coords.length < 4 then none
  else some (bitwiseAnd img (fillPoly inside coords (zerosLike img)))

/-! ### GeoDistance: `__distance` (lines 40-55) -/

/-- `__distance(lat1, lon1, lat2, lon2)`: haversine great-circle distance in
meters.  Coordinates are decimal degrees (floats, i.e. rationals); the
transcendental arithmetic is exact-real. -/
noncomputable def distance (lat1 lon1 lat2 lon2 : ℚ) : ℝ :=
  let lon1r : ℝ := (lon1 : ℝ) * Real.pi / 180
  let lat1r : ℝ := (lat1 : ℝ) * Real.pi / 180
  let lon2r : ℝ := (lon2 : ℝ) * Real.pi / 180
  let lat2r : ℝ := (lat2 : ℝ) * Real.pi / 180
  let dlon := lon2r - lon1r
  let dlat := lat2r - lat1r
  let a := Real.sin (dlat / 2) ^ 2 +
    Real.cos lat1r * Real.cos lat2r * Real.sin (dlon / 2) ^ 2
  let c := 2 * Real.arcsin (Real.sqrt a)
  c * 6371000

/-! ### ClosestMatch: `__closest` (lines 58-75) -/

/-- One record of the speedband data: exposes `AvgLat` / `AvgLon`. -/
structure SpeedbandPoint where
  avgLat : ℚ
  avgLon : ℚ
deriving DecidableEq

/-- The camera coordinates dict `{Latitude: ..., Longitude: ...}`. -/
structure CamCoords where
  latitude : ℚ
  longitude : ℚ

/-- Python's `min(xs, key=key)` on a non-empty list, as the left fold that
keeps the earlier element on a tie (stable first minimum). -/
def minFold {α β : Type*} [LinearOrder β] (key : α → β) (acc : α)
    (l : List α) : α :=
  l.foldl (fun b p => if key p < key b then p else b) acc

/-- `__closest(data, cam_coords)` (lines 58-75): `min` over the candidates
keyed by distance to the camera (raises on an empty sequence, modelled
`none`), then `data.index(lat_long)` (first position holding an equal
element) and the recomputed distance. -/
noncomputable def closest (data : List SpeedbandPoint) (cam : CamCoords) :
    Option (ℕ × SpeedbandPoint × ℝ) :=
  match data with
  | [] => none
  | d :: rest =>
    let key := fun p : SpeedbandPoint =>
      distance cam.latitude cam.longitude p.avgLat p.avgLon
    let lat_long := minFold key d rest
    let index := data.findIdx (fun p => decide (p = lat_long))
    some (index, lat_long, key lat_long)

/-! ### Identity parsing: `predict_vehicle_count` lines 125-129 -/

/-- Gregorian leap year, as `datetime` validates dates. -/
def isLeap (y : ℕ) : Bool :=
  (y % 4 == 0 && y % 100 != 0) || y % 400 == 0

/-- Length of a month, as `datetime` validates dates. -/
def daysInMonth (y m : ℕ) : ℕ :=
  if m = 2 then (if isLeap y then 29 else 28)
  else if m = 4 ∨ m = 6 ∨ m = 9 ∨ m = 11 then 30
  else 31

/-- Python's `s.split(sep)` for a one-character separator, over the character
list of the string: every occurrence of the separator cuts; adjacent
separators yield empty fields. -/
def splitOnChar (sep : Char) : List Char → List (List Char)
  | [] => [[]]
  | c :: rest =>
    if c = sep then [] :: splitOnChar sep rest
    else
      match splitOnChar sep rest with
      | [] => [[c]]
      | g :: gs => (c :: g) :: gs

/-- The value of a digit string, most significant digit first. -/
def digitsToNat (cs : List Char) : ℕ :=
  cs.foldl (fun n c => n * 10 + (c.toNat - 48)) 0

/-- Python's `int(s)` restricted to the shapes this pipeline meets: a
non-empty run of decimal digits parses to its value, anything else raises
`ValueError` (modelled `none`). -/
def pyInt? (cs : List Char) : Option ℕ :=
  if cs ≠ [] ∧ cs.all Char.isDigit then some (digitsToNat cs) else none

/-- `datetime.datetime.strptime(s, "%Y%m%d%H%M%S")`: the whole string must be
consumed (trailing characters raise `ValueError: unconverted data remains`),
so it must be exactly 14 digits, and the fields must form a valid
`datetime` (year in `MINYEAR..MAXYEAR`, real calendar date, valid time). -/
def strptimeYmdHMS (cs : List Char) : Option Datetime :=
  if cs.length = 14 ∧ cs.all Char.isDigit then
    let y := digitsToNat (cs.take 4)
    let mo := digitsToNat ((cs.drop 4).take 2)
    let d := digitsToNat ((cs.drop 6).take 2)
    let h := digitsToNat ((cs.drop 8).take 2)
    let mi := digitsToNat ((cs.drop 10).take 2)
    let sec := digitsToNat ((cs.drop 12).take 2)
    if 1 ≤ y ∧ 1 ≤ mo ∧ mo ≤ 12 ∧ 1 ≤ d ∧ d ≤ daysInMonth y mo ∧
        h ≤ 23 ∧ mi ≤ 59 ∧ sec ≤ 59 then
      some ⟨y, mo, d, h, mi, sec⟩
    else none
  else none

/-- Lines 125-129 of `predict_vehicle_count`:
`camera_id = int(img_path.split("/")[-1].split("_")[0])`,
`timestamp = img_path.split("/")[-1].split("_")[2]`,
`image_datetime = datetime.datetime.strptime(timestamp, "%Y%m%d%H%M%S")`.
Any raised exception (`ValueError` from `int` or `strptime`, `IndexError`
from the `[2]`) is modelled as `none`. -/
def parseIdentity (img_path : String) : Option (ℕ × Datetime) :=
  let name := (splitOnChar '/' img_path.data).getLastD []
  let parts := splitOnChar '_' name
  match pyInt? (parts.getD 0 []) with
  | none => none
  | some camera_id =>
    match parts[2]? with
    | none => none
    | some timestamp =>
      match strptimeYmdHMS timestamp with
      | none => none
      | some image_datetime => some (camera_id, image_datetime)

/-! ### PipelineOrchestrator: `predict_vehicle_count` (lines 123-181)

The loop body after identity parsing and the reference-table joins.  The
external pieces are parameters: `inside` is cv2's polygon rasterisation (as
for `roi`), `detect` is `self.model.predict(roi_img, conf=0.5, iou=0.8)[0]`
returning the bounding boxes (`result.boxes.xyxy`) — note the source calls it
on whatever `__roi` returned, including `None`.  The reference tables are
lookup functions from a camera id to its ROI rows (in dataframe row order)
and its coordinates. -/

/-- One bounding box `x1, y1, x2, y2`. -/
def Box : Type := ℤ × ℤ × ℤ × ℤ

/-- One row of `image_roi_df` for a camera: the polygon (column 1, parsed by
`ast.literal_eval`) and the direction label (column 2). -/
structure RoiRow where
  coordinates : List (ℤ × ℤ)
  direction : String

/-- One image of the batch after identity parsing: camera id, timestamp and
the decoded raster (`cv2.imread`). -/
structure ImageItem where
  cameraId : ℕ
  dt : Datetime
  img : Image

/-- One row of the output dataframe (lines 150-164 / 167-179). -/
structure Observation where
  cameraId : ℕ
  direction : String
  vehicleCount : ℕ
  density : ℚ
  date : ℕ × ℕ × ℕ
  time : ℕ
  latitude : ℚ
  longitude : ℚ
  isWeekday : ℕ
  isPeak : ℕ
  jamFlag : ℕ
deriving DecidableEq

/-- The body of the inner ROI loop (lines 141-164), producing the record
appended for one `(image, ROI)` pair. -/
def mkObservation (inside : List (ℤ × ℤ) → ℕ → ℕ → Bool)
    (detect : Option Image → List Box)
    (item : ImageItem) (cam : CamCoords) (r : RoiRow) : Observation :=
  let roi_img := roi inside item.img r.coordinates
  let vehicle_count := (detect roi_img).length
  let density := densityOf vehicle_count
  let jam := jamOf density
  { cameraId := item.cameraId
    direction := r.direction
    vehicleCount := vehicle_count
    density := density
    date := (item.dt.year, item.dt.month, item.dt.day)
    time := timeOfDay item.dt
    latitude := cam.latitude
    longitude := cam.longitude
    isWeekday := is_weekday item.dt
    isPeak := is_peak item.dt
    jamFlag := jam }

/-- `predict_vehicle_count` (lines 123-181): `result_list` starts empty; the
outer loop walks the images, the inner loop walks that camera's ROI rows and
appends one record per row.  Every iteration appends unconditionally — there
is no skip branch. -/
def predict_vehicle_count (inside : List (ℤ × ℤ) → ℕ → ℕ → Bool)
    (detect : Option Image → List Box)
    (roiTable : ℕ → List RoiRow) (camTable : ℕ → CamCoords)
    (images : List ImageItem) : List Observation :=
  images.foldl
    (fun result_list item =>
      (roiTable item.cameraId).foldl
        (fun acc r =>
          acc ++ [mkObservation inside detect item (camTable item.cameraId) r])
        result_list)
    []

/-! ### Concrete fixtures used by witnesses and counterexamples -/

/-- A rasteriser that puts every pixel inside the polygon. -/
def insideAll : List (ℤ × ℤ) → ℕ → ℕ → Bool := fun _ _ _ => true

/-- A detector stub returning no boxes. -/
def detectNone : Option Image → List Box := fun _ => []

/-- A detector stub returning eight boxes. -/
def detectEight : Option Image → List Box :=
  fun _ => List.replicate 8 ((0, 0, 1, 1) : ℤ × ℤ × ℤ × ℤ)

/-- A three-point polygon (fewer than the required four). -/
def triPoly : List (ℤ × ℤ) := [(0, 0), (4, 0), (4, 4)]

/-- A four-point polygon. -/
def quadPoly : List (ℤ × ℤ) := [(0, 0), (4, 0), (4, 4), (0, 4)]

/-- A tiny constant image with in-range (`uint8`) pixel values. -/
def imgA : Image := ⟨2, 2, fun _ _ => 7⟩

/-- Coordinates of a test camera. -/
def camA : CamCoords := ⟨103 / 100, 1 / 2⟩

/-- A test image item for camera 101, Thursday 2023-06-15 08:30:00. -/
def itemA : ImageItem := ⟨101, ⟨2023, 6, 15, 8, 30, 0⟩, imgA⟩

/-- An ROI table with one three-point row for every camera. -/
def roiTableTri : ℕ → List RoiRow := fun _ => [⟨triPoly, "North"⟩]

/-- An ROI table with one four-point row for every camera. -/
def roiTableQuad : ℕ → List RoiRow := fun _ => [⟨quadPoly, "North"⟩]

/-- A camera-coordinate table. -/
def camTableA : ℕ → CamCoords := fun _ => camA

/-- Three speedband candidates for the closest-match witness. -/
def dataThree : List SpeedbandPoint := [⟨1, 2⟩, ⟨3, 4⟩, ⟨5, 6⟩]

end VehicleCount

namespace VehicleCount

/-! ### C1 — density / jam classification -/

/-- C1: for every non-negative vehicle count, `density = vehicleCount / 0.3`
(the fixed factor `0.100 × 3`), the jam verdict is 1 exactly when
`density ≥ 23.33`, density is linear in the count, and the jam verdict is
monotonic in the count. -/
theorem C1_density_jam_classification :
    (∀ c : ℕ, densityOf c = (c : ℚ) / (3 / 10)) ∧
    (∀ c : ℕ, jamOf (densityOf c) = 1 ↔ (2333 / 100 : ℚ) ≤ densityOf c) ∧
    (∀ c : ℕ, densityOf c = (10 / 3 : ℚ) * c) ∧
    (∀ c cc : ℕ, c ≤ cc → jamOf (densityOf c) ≤ jamOf (densityOf cc)) := by
  have hlin : ∀ c : ℕ, densityOf c = (10 / 3 : ℚ) * c := by
    intro c
    unfold densityOf
    ring
  have hmono : ∀ c cc : ℕ, c ≤ cc → densityOf c ≤ densityOf cc := by
    intro c cc h
    rw [hlin, hlin]
    have : (c : ℚ) ≤ (cc : ℚ) := by exact_mod_cast h
    nlinarith
  refine ⟨?_, ?_, hlin, ?_⟩
  · intro c
    unfold densityOf
    ring
  · intro c
    unfold jamOf
    split_ifs with h
    · simpa using h
    · simpa using h
  · intro c cc h
    unfold jamOf
    split_ifs with h1 h2
    · omega
    · exact absurd (le_trans h1 (hmono c cc h)) h2
    · omega
    · omega

/-- C1 witness: the monotonicity component at counts 3 ≤ 8. -/
theorem C1_density_jam_classification_witness :
    jamOf (densityOf 3) ≤ jamOf (densityOf 8) :=
  C1_density_jam_classification.2.2.2 3 8 (by decide)

/-! ### C2 — peak windows -/

/-- C2 counterexample: at time-of-day exactly 10:00:00 the code reports peak
(`is_peak = 1`) although 10:00:00 lies in no half-open `[start, end)` window
of the configuration — the containment check is inclusive of the end. -/
theorem C2_peak_counterexample :
    is_peak ⟨2023, 6, 15, 10, 0, 0⟩ = 1 ∧
    (∀ w ∈ peak_hours,
      ¬(w.1 ≤ timeOfDay ⟨2023, 6, 15, 10, 0, 0⟩ ∧
        timeOfDay ⟨2023, 6, 15, 10, 0, 0⟩ < w.2)) := by
  decide

/-- C2 amended: for a non-wrapping window the containment test is the closed
interval `start ≤ x ≤ end`; `is_peak` is 1 exactly when the time of day lies
in one of the two configured closed windows; for the default window
{08:00, 10:00} it is 1 at 08:00:00, 09:59:59 and also at 10:00:00, and 0 at
10:00:01 and 07:59:59. -/
theorem C2_peak_closed_interval :
    (∀ s e x : ℕ, s ≤ e → (time_in_range s e x = true ↔ s ≤ x ∧ x ≤ e)) ∧
    (∀ dt : Datetime, is_peak dt = 1 ↔
      (time_in_range (mkTime 8 0 0) (mkTime 10 0 0) (timeOfDay dt) = true ∨
       time_in_range (mkTime 18 0 0) (mkTime 20 30 0) (timeOfDay dt) = true)) ∧
    is_peak ⟨2023, 6, 15, 8, 0, 0⟩ = 1 ∧
    is_peak ⟨2023, 6, 15, 9, 59, 59⟩ = 1 ∧
    is_peak ⟨2023, 6, 15, 10, 0, 0⟩ = 1 ∧
    is_peak ⟨2023, 6, 15, 10, 0, 1⟩ = 0 ∧
    is_peak ⟨2023, 6, 15, 7, 59, 59⟩ = 0 := by
  refine ⟨?_, ?_, by decide, by decide, by decide, by decide, by decide⟩
  · intro s e x h
    unfold time_in_range
    rw [if_pos h]
    simp
  · intro dt
    unfold is_peak isPeakBool peak_hours
    cases h1 : time_in_range (mkTime 8 0 0) (mkTime 10 0 0) (timeOfDay dt) <;>
      cases h2 : time_in_range (mkTime 18 0 0) (mkTime 20 30 0) (timeOfDay dt) <;>
        simp [List.foldl, h1, h2]

/-- C2 witness: the closed-interval characterisation applied to the morning
window and 08:20:00. -/
theorem C2_peak_closed_interval_witness :
    time_in_range 28800 36000 30000 = true ↔ 28800 ≤ 30000 ∧ 30000 ≤ 36000 :=
  C2_peak_closed_interval.1 28800 36000 30000 (by decide)

/-! ### C6 — identity parsing -/

/-- C6 counterexample: the nonconforming name `12_a_20230101000000_x.jpg`
(four underscore fields, so not of the form
`{CameraID}_{...}_{YYYYMMDDHHMMSS}.jpg`) does not fail at all: positional
splitting silently parses it as camera 12 at 2023-01-01 00:00:00. -/
theorem C6_parse_counterexample :
    parseIdentity "12_a_20230101000000_x.jpg" =
      some (12, ⟨2023, 1, 1, 0, 0, 0⟩) := by
  decide

/-- C6 amended: no `InvalidImageNameError` exists.  A nonconforming name
whose first field is numeric and whose third field is a clean 14-digit
timestamp is silently misparsed; other nonconforming names fail with the
built-in errors of `int`/indexing/`strptime` (modelled `none`); and a name
that does match the documented three-field pattern fails as well, because
the `.jpg` suffix stays attached to the timestamp field handed to
`strptime`. -/
theorem C6_parse_behavior :
    parseIdentity "12_a_20230101000000_x.jpg" =
      some (12, ⟨2023, 1, 1, 0, 0, 0⟩) ∧
    parseIdentity "abc_X_20230615083000.jpg" = none ∧
    parseIdentity "foo.jpg" = none ∧
    parseIdentity "101_X_20230615083000.jpg" = none := by
  decide

/-! ### C7 — closest match on the empty candidate sequence -/

/-- C7: the closest-match operation fails exactly on the empty candidate
sequence (the `min` of an empty sequence raises; the failure the spec names
`EmptyInputError` is the model's `none`). -/
theorem C7_closest_empty :
    ∀ (data : List SpeedbandPoint) (cam : CamCoords),
      closest data cam = none ↔ data = [] := by
  intro data cam
  cases data with
  | nil => simp [closest]
  | cons d rest => simp [closest]

/-! ### C9 — symmetry and reflexivity of the haversine distance -/

/-- C9: the great-circle distance of `__distance` (haversine with
`R = 6.371e6` m) is symmetric, and the distance from a coordinate to itself
is zero. -/
theorem C9_distance_symm_self :
    (∀ lat1 lon1 lat2 lon2 : ℚ,
      distance lat1 lon1 lat2 lon2 = distance lat2 lon2 lat1 lon1) ∧
    (∀ lat lon : ℚ, distance lat lon lat lon = 0) := by
  constructor
  · intro lat1 lon1 lat2 lon2
    have key : ∀ x y : ℝ, Real.sin ((x - y) / 2) ^ 2 = Real.sin ((y - x) / 2) ^ 2 := by
      intro x y
      rw [show (x - y) / 2 = -((y - x) / 2) by ring, Real.sin_neg]
      ring
    unfold distance
    dsimp only
    rw [key, key, mul_comm (Real.cos ((lat1 : ℝ) * Real.pi / 180))
      (Real.cos ((lat2 : ℝ) * Real.pi / 180)),
      key ((lon2 : ℝ) * Real.pi / 180) ((lon1 : ℝ) * Real.pi / 180)]
  · intro lat lon
    unfold distance
    simp

/-! ### C3 — region masking -/

/-- C3: for every image and every polygon with at least 4 points, `__roi`
succeeds and produces an image of the input's dimensions in which every
pixel outside the filled polygon (as rasterised by `cv2.fillPoly`) is
exactly zero and every pixel inside keeps its original (`uint8`) value. -/
theorem C3_roi_mask (inside : List (ℤ × ℤ) → ℕ → ℕ → Bool) (img : Image)
    (coords : List (ℤ × ℤ)) (h4 : 4 ≤ coords.length)
    (hb : ∀ i j, img.pix i j < 256) :
    ∃ out, roi inside img coords = some out ∧ out.rows = img.rows ∧
      out.cols = img.cols ∧
      (∀ i j, inside coords i j = true → out.pix i j = img.pix i j) ∧
      (∀ i j, inside coords i j = false → out.pix i j = 0) := by
  refine ⟨bitwiseAnd img (fillPoly inside coords (zerosLike img)),
    ?_, rfl, rfl, ?_, ?_⟩
  · unfold roi
    rw [if_neg (by omega)]
  · intro i j hin
    show img.pix i j &&&
      (if inside coords i j then 255 else (zerosLike img).pix i j) = img.pix i j
    rw [if_pos hin]
    have h := Nat.and_pow_two_sub_one_of_lt_two_pow (n := 8) (hb i j)
    norm_num at h
    exact h
  · intro i j hout
    show img.pix i j &&&
      (if inside coords i j then 255 else (zerosLike img).pix i j) = 0
    rw [if_neg (by simp [hout])]
    exact Nat.and_zero _

/-- C3 witness: the masking theorem at a concrete 2×2 image and a 4-point
polygon. -/
theorem C3_roi_mask_witness :
    ∃ out, roi insideAll imgA quadPoly = some out ∧ out.rows = imgA.rows ∧
      out.cols = imgA.cols ∧
      (∀ i j, insideAll quadPoly i j = true → out.pix i j = imgA.pix i j) ∧
      (∀ i j, insideAll quadPoly i j = false → out.pix i j = 0) :=
  C3_roi_mask insideAll imgA quadPoly (by decide)
    (fun _ _ => by norm_num [imgA])

/-! ### C5 — one record per (image, ROI) pair, in order, append-only -/

/-- A fold that appends one element per step produces the mapped list after
the initial segment. -/
theorem foldl_append_singleton {α β : Type*} (f : α → β) :
    ∀ (l : List α) (init : List β),
      l.foldl (fun acc x => acc ++ [f x]) init = init ++ l.map f := by
  intro l
  induction l with
  | nil => intro init; simp
  | cons x t ih =>
    intro init
    rw [List.foldl_cons, ih]
    simp

/-- The record list built by the nested loops of `predict_vehicle_count`
extends its initial segment with one record per (image, ROI-row) pair, in
processing order. -/
theorem predict_loop_eq_flatMap (inside : List (ℤ × ℤ) → ℕ → ℕ → Bool)
    (detect : Option Image → List Box) (rt : ℕ → List RoiRow)
    (ct : ℕ → CamCoords) :
    ∀ (images : List ImageItem) (init : List Observation),
      images.foldl
        (fun result_list item =>
          (rt item.cameraId).foldl
            (fun acc r =>
              acc ++ [mkObservation inside detect item (ct item.cameraId) r])
            result_list)
        init =
      init ++ images.flatMap
        (fun item => (rt item.cameraId).map
          (mkObservation inside detect item (ct item.cameraId))) := by
  intro images
  induction images with
  | nil => intro init; simp
  | cons item t ih =>
    intro init
    rw [List.foldl_cons, foldl_append_singleton, ih]
    simp

/-- C5: the output table of `predict_vehicle_count` is exactly one record
per (image, ROI-row) pair, in the order the images and their ROI rows are
processed; processing further images only appends to the previously built
table (records are never mutated after being appended), and likewise the
inner ROI loop only appends to its incoming record list. -/
theorem C5_one_record_per_pair :
    (∀ (inside : List (ℤ × ℤ) → ℕ → ℕ → Bool)
        (detect : Option Image → List Box) (rt : ℕ → List RoiRow)
        (ct : ℕ → CamCoords) (images : List ImageItem),
      predict_vehicle_count inside detect rt ct images =
        images.flatMap
          (fun item => (rt item.cameraId).map
            (mkObservation inside detect item (ct item.cameraId)))) ∧
    (∀ (inside : List (ℤ × ℤ) → ℕ → ℕ → Bool)
        (detect : Option Image → List Box) (rt : ℕ → List RoiRow)
        (ct : ℕ → CamCoords) (images : List ImageItem) (item : ImageItem),
      predict_vehicle_count inside detect rt ct (images ++ [item]) =
        predict_vehicle_count inside detect rt ct images ++
          (rt item.cameraId).map
            (mkObservation inside detect item (ct item.cameraId))) ∧
    (∀ (inside : List (ℤ × ℤ) → ℕ → ℕ → Bool)
        (detect : Option Image → List Box) (item : ImageItem)
        (cam : CamCoords) (rois : List RoiRow) (init : List Observation),
      rois.foldl
        (fun acc r => acc ++ [mkObservation inside detect item cam r]) init =
        init ++ rois.map (mkObservation inside detect item cam)) := by
  have h1 : ∀ (inside : List (ℤ × ℤ) → ℕ → ℕ → Bool)
      (detect : Option Image → List Box) (rt : ℕ → List RoiRow)
      (ct : ℕ → CamCoords) (images : List ImageItem),
      predict_vehicle_count inside detect rt ct images =
        images.flatMap
          (fun item => (rt item.cameraId).map
            (mkObservation inside detect item (ct item.cameraId))) := by
    intro inside detect rt ct images
    unfold predict_vehicle_count
    rw [predict_loop_eq_flatMap]
    simp
  refine ⟨h1, ?_, ?_⟩
  · intro inside detect rt ct images item
    rw [h1, h1, List.flatMap_append]
    simp
  · intro inside detect item cam rois init
    exact foldl_append_singleton _ rois init

/-! ### C4 — regions with fewer than 4 polygon points -/

/-- C4 (code-bug evidence): with a 3-point polygon `__roi` fails and returns
no image, but the pipeline does not skip the region: the detector is invoked
on the absent image and an observation record is still appended for that
(image, ROI) pair. -/
theorem C4_invalid_region_not_skipped :
    roi insideAll imgA triPoly = none ∧
    predict_vehicle_count insideAll detectNone roiTableTri camTableA [itemA] =
      [mkObservation insideAll detectNone itemA camA ⟨triPoly, "North"⟩] ∧
    (predict_vehicle_count insideAll detectNone roiTableTri camTableA
      [itemA]).length = 1 :=
  ⟨rfl, rfl, rfl⟩

/-! ### C10 — flag fields are exactly 0 or 1 -/

/-- C10: the weekday classifier, the peak classifier and the jam verdict
each return the integer 0 or 1, so in every emitted observation record the
`Is_Weekday`, `Is_Peak` and `Jam` fields are integers in {0, 1}. -/
theorem C10_flags_binary :
    (∀ dt : Datetime, is_weekday dt = 0 ∨ is_weekday dt = 1) ∧
    (∀ dt : Datetime, is_peak dt = 0 ∨ is_peak dt = 1) ∧
    (∀ d : ℚ, jamOf d = 0 ∨ jamOf d = 1) ∧
    (∀ (inside : List (ℤ × ℤ) → ℕ → ℕ → Bool)
        (detect : Option Image → List Box) (rt : ℕ → List RoiRow)
        (ct : ℕ → CamCoords) (images : List ImageItem) (o : Observation),
      o ∈ predict_vehicle_count inside detect rt ct images →
        (o.isWeekday = 0 ∨ o.isWeekday = 1) ∧
        (o.isPeak = 0 ∨ o.isPeak = 1) ∧
        (o.jamFlag = 0 ∨ o.jamFlag = 1)) := by
  have hw : ∀ dt : Datetime, is_weekday dt = 0 ∨ is_weekday dt = 1 := by
    intro dt
    unfold is_weekday
    split_ifs <;> simp
  have hp : ∀ dt : Datetime, is_peak dt = 0 ∨ is_peak dt = 1 := by
    intro dt
    unfold is_peak
    split_ifs <;> simp
  have hj : ∀ d : ℚ, jamOf d = 0 ∨ jamOf d = 1 := by
    intro d
    unfold jamOf
    split_ifs <;> simp
  refine ⟨hw, hp, hj, ?_⟩
  intro inside detect rt ct images o hmem
  unfold predict_vehicle_count at hmem
  rw [predict_loop_eq_flatMap] at hmem
  simp only [List.nil_append, List.mem_flatMap, List.mem_map] at hmem
  obtain ⟨item, -, r, -, rfl⟩ := hmem
  exact ⟨hw item.dt, hp item.dt, hj _⟩

/-- C10 witness: the record-level statement on a concrete one-image,
one-ROI run. -/
theorem C10_flags_binary_witness :
    let o := mkObservation insideAll detectNone itemA camA ⟨quadPoly, "North"⟩
    (o.isWeekday = 0 ∨ o.isWeekday = 1) ∧
    (o.isPeak = 0 ∨ o.isPeak = 1) ∧
    (o.jamFlag = 0 ∨ o.jamFlag = 1) :=
  C10_flags_binary.2.2.2 insideAll detectNone roiTableQuad camTableA [itemA]
    (mkObservation insideAll detectNone itemA camA ⟨quadPoly, "North"⟩)
    (List.mem_singleton.mpr rfl)

/-! ### C8 — closest match returns the stable minimum -/

/-- Unfolding one step of `minFold`. -/
theorem minFold_cons {α β : Type*} [LinearOrder β] (key : α → β)
    (acc p : α) (t : List α) :
    minFold key acc (p :: t) =
      minFold key (if key p < key acc then p else acc) t :=
  rfl

/-- Python's stable `min`: the fold result is the accumulator when nothing
beats it, and otherwise the first strict improvement — everything strictly
before it (the accumulator included) has a strictly larger key, everything
after it a larger-or-equal key. -/
theorem minFold_spec {α β : Type*} [LinearOrder β] (key : α → β) :
    ∀ (l : List α) (acc : α), ∃ r, minFold key acc l = r ∧
      ((r = acc ∧ ∀ y ∈ l, key acc ≤ key y) ∨
       (∃ u v, l = u ++ r :: v ∧ key r < key acc ∧
         (∀ y ∈ acc :: u, key r < key y) ∧
         (∀ y ∈ v, key r ≤ key y))) := by
  intro l
  induction l with
  | nil =>
    intro acc
    exact ⟨acc, rfl, Or.inl ⟨rfl, by simp⟩⟩
  | cons p t ih =>
    intro acc
    by_cases hp : key p < key acc
    · obtain ⟨r, hr, hcases⟩ := ih p
      refine ⟨r, by rw [minFold_cons, if_pos hp]; exact hr, Or.inr ?_⟩
      rcases hcases with ⟨heq, hmin⟩ | ⟨u, v, hsplit, hlt, hall, hrest⟩
      · subst heq
        refine ⟨[], t, rfl, hp, ?_, hmin⟩
        intro y hy
        simp only [List.mem_singleton] at hy
        subst hy
        exact hp
      · refine ⟨p :: u, v, by rw [hsplit]; rfl, lt_trans hlt hp, ?_, hrest⟩
        intro y hy
        rcases List.mem_cons.mp hy with rfl | hy2
        · exact lt_trans hlt hp
        · exact hall y hy2
    · obtain ⟨r, hr, hcases⟩ := ih acc
      have hap : key acc ≤ key p := le_of_not_lt hp
      refine ⟨r, by rw [minFold_cons, if_neg hp]; exact hr, ?_⟩
      rcases hcases with ⟨heq, hmin⟩ | ⟨u, v, hsplit, hlt, hall, hrest⟩
      · refine Or.inl ⟨heq, ?_⟩
        intro y hy
        rcases List.mem_cons.mp hy with rfl | hy2
        · exact hap
        · exact hmin y hy2
      · refine Or.inr ⟨p :: u, v, by rw [hsplit]; rfl, hlt, ?_, hrest⟩
        intro y hy
        rcases List.mem_cons.mp hy with rfl | hy2
        · exact hall y (List.mem_cons_self _ _)
        · rcases List.mem_cons.mp hy2 with rfl | hy3
          · exact lt_of_lt_of_le hlt hap
          · exact hall y (List.mem_cons_of_mem _ hy3)

/-- `list.index(a)` on a list whose prefix holds no element equal to `a`
finds the position right after that prefix. -/
theorem findIdx_append_eq {α : Type*} [DecidableEq α] (a : α) :
    ∀ (u : List α), (∀ y ∈ u, y ≠ a) → ∀ v,
      (u ++ a :: v).findIdx (fun p => decide (p = a)) = u.length := by
  intro u
  induction u with
  | nil =>
    intro _ v
    simp [List.findIdx_cons]
  | cons y t ih =>
    intro h v
    have hy : y ≠ a := h y (List.mem_cons_self _ _)
    have ht := ih (fun z hz => h z (List.mem_cons_of_mem _ hz)) v
    simp [List.findIdx_cons, hy, ht]

/-- C8: on a non-empty candidate sequence, `__closest` returns a triple
`(index, candidate, distance)` where the candidate minimises the
great-circle distance to the reference, every candidate strictly before it
in input order is strictly farther (ties break to the first occurrence of
the minimum), the index is the candidate's 0-based position, and the
distance is the great-circle distance from the reference to it. -/
theorem C8_closest_stable_min (data : List SpeedbandPoint) (cam : CamCoords)
    (hne : data ≠ []) :
    ∃ i c dist u v,
      closest data cam = some (i, c, dist) ∧
      data = u ++ c :: v ∧
      i = u.length ∧
      dist = distance cam.latitude cam.longitude c.avgLat c.avgLon ∧
      (∀ y ∈ data,
        distance cam.latitude cam.longitude c.avgLat c.avgLon ≤
          distance cam.latitude cam.longitude y.avgLat y.avgLon) ∧
      (∀ y ∈ u,
        distance cam.latitude cam.longitude c.avgLat c.avgLon <
          distance cam.latitude cam.longitude y.avgLat y.avgLon) := by
  cases data with
  | nil => exact absurd rfl hne
  | cons d rest =>
    obtain ⟨r, hr, hcases⟩ := minFold_spec
      (fun p : SpeedbandPoint =>
        distance cam.latitude cam.longitude p.avgLat p.avgLon) rest d
    have hclosest : closest (d :: rest) cam =
        some ((d :: rest).findIdx (fun p => decide (p = r)), r,
          distance cam.latitude cam.longitude r.avgLat r.avgLon) := by
      unfold closest
      dsimp only
      rw [hr]
    rcases hcases with ⟨heq, hmin⟩ | ⟨u, v, hsplit, hlt, hall, hrest⟩
    · subst heq
      refine ⟨0, r, _, [], rest, ?_, rfl, rfl, rfl, ?_, by simp⟩
      · rw [hclosest]
        simp [List.findIdx_cons]
      · intro y hy
        rcases List.mem_cons.mp hy with rfl | hy2
        · exact le_refl _
        · exact hmin y hy2
    · have hneq : ∀ y ∈ d :: u, y ≠ r := by
        intro y hy he
        subst he
        exact lt_irrefl _ (hall y hy)
      have hdata : d :: rest = (d :: u) ++ r :: v := by
        rw [hsplit]
        rfl
      have hidx : (d :: rest).findIdx (fun p => decide (p = r)) =
          (d :: u).length := by
        rw [hdata]
        exact findIdx_append_eq r (d :: u) hneq v
      refine ⟨(d :: u).length, r, _, d :: u, v, ?_, hdata, rfl, rfl, ?_, hall⟩
      · rw [hclosest, hidx]
      · intro y hy
        rw [hdata] at hy
        rcases List.mem_append.mp hy with hy1 | hy2
        · exact le_of_lt (hall y hy1)
        · rcases List.mem_cons.mp hy2 with rfl | hy3
          · exact le_refl _
          · exact hrest y hy3

/-- C8 witness: the stable-minimum theorem at a concrete 3-candidate set. -/
theorem C8_closest_stable_min_witness :
    ∃ i c dist u v,
      closest dataThree camA = some (i, c, dist) ∧
      dataThree = u ++ c :: v ∧
      i = u.length ∧
      dist = distance camA.latitude camA.longitude c.avgLat c.avgLon ∧
      (∀ y ∈ dataThree,
        distance camA.latitude camA.longitude c.avgLat c.avgLon ≤
          distance camA.latitude camA.longitude y.avgLat y.avgLon) ∧
      (∀ y ∈ u,
        distance camA.latitude camA.longitude c.avgLat c.avgLon <
          distance camA.latitude camA.longitude y.avgLat y.avgLon) :=
  C8_closest_stable_min dataThree camA (by decide)

end VehicleCount
